import Mathlib

/-
Shallow embedding of pgxtest (pgtest.go): a library that provisions a
disposable PostgreSQL server for tests and tears it down.

External effects (filesystem, process control, connection pool) are modelled
by oracle environments that fix the outcome of each effectful call, and each
operation additionally produces a trace of the effects it performed, so that
frame properties (what was removed, whether a process is left running) can be
stated about the trace.
-/

deriving instance DecidableEq for Except

namespace Pgxtest

/-- Simplified filepath.Join for two components (no path cleaning). -/
def joinPath (a b : String) : String :=
  if a = "" then b else if b = "" then a else a ++ "/" ++ b

/-- Simplified path.Dir: everything before the last slash (the directory
part of the path); "." when there is no slash. -/
def pathDir (p : String) : String :=
  match p.data.reverse.dropWhile (fun c => c != '/') with
  | [] => "."
  | _ :: rest => String.mk rest.reverse

/-- One entry of a directory listing, as returned by os.ReadDir
(entries come back sorted by file name). -/
structure DirEntry where
  name : String
  isDir : Bool
deriving DecidableEq, Repr

/-- Filesystem oracle for findBinPath: outcome of exec.LookPath for the
initdb tool, of os.Stat (none = the stat call failed, some b = the path
exists and b says whether it is a directory), and of os.ReadDir. -/
structure FS where
  lookPathInitdb : Option String
  statF : String → Option Bool
  readDirF : String → Except String (List DirEntry)

inductive FindErr
  | ioErr (e : String)
  | notFound
deriving DecidableEq, Repr

def findErrString : FindErr → String
  | FindErr.ioErr e => e
  | FindErr.notFound => "Did not find PostgreSQL executables installed"

/-- The inner loop of findBinPath over the entries of one candidate folder
(pgtest.go lines 266-280): a non-directory entry named initdb yields the
folder itself; a directory entry whose nested bin subdirectory contains
initdb yields that nested bin path; otherwise continue with the next entry. -/
def scanEntries (fs : FS) (folder : String) : List DirEntry → Option String
  | [] => none
  | fi :: rest =>
    if !fi.isDir && fi.name = "initdb" then some folder
    else if !fi.isDir then scanEntries fs folder rest
    else
      let binPath := joinPath (joinPath folder fi.name) "bin"
      if (fs.statF (joinPath binPath "initdb")).isSome then some binPath
      else scanEntries fs folder rest

/-- Specification form of the per-entry test applied by scanEntries:
what a single directory entry contributes, independent of its position. -/
def entryProbe (fs : FS) (folder : String) (fi : DirEntry) : Option String :=
  if !fi.isDir && fi.name = "initdb" then some folder
  else if !fi.isDir then none
  else
    let binPath := joinPath (joinPath folder fi.name) "bin"
    if (fs.statF (joinPath binPath "initdb")).isSome then some binPath
    else none

/-- The outer loop of findBinPath over candidate folders (lines 253-281):
a folder that does not exist or is not a directory is skipped; a ReadDir
failure on an existing directory is propagated; otherwise the entry scan
decides, and on no match the next folder is tried. -/
def scanFolders (fs : FS) : List String → Except FindErr String
  | [] => Except.error FindErr.notFound
  | folder :: rest =>
    match fs.statF folder with
    | none => scanFolders fs rest
    | some isDir =>
      if !isDir then scanFolders fs rest
      else
        match fs.readDirF folder with
        | Except.error e => Except.error (FindErr.ioErr e)
        | Except.ok files =>
          match scanEntries fs folder files with
          | some p => Except.ok p
          | none => scanFolders fs rest

/-- findBinPath (pgtest.go lines 239-284): with no hint, first try the
executable search path; then scan the hint directory and the well-known
Ubuntu root, in order. -/
def findBinPath (fs : FS) (binDir : String) : Except FindErr String :=
  if binDir = "" then
    match fs.lookPathInitdb with
    | some p => Except.ok (pathDir p)
    | none => scanFolders fs [binDir, "/usr/lib/postgresql/"]
  else scanFolders fs [binDir, "/usr/lib/postgresql/"]

/-- Events recording the external effects performed by Start, Stop, abort,
createTestDB and retry. -/
inductive Ev
  | mkdirTempEv (dir : String)
  | mkdirAllEv (dir : String)
  | initdbEv (dataDir : String)
  | spawn (exe : String) (args : List String)
  | signalInt
  | waitEv
  | signalKill
  | readStreams
  | closeStderr
  | closeStdout
  | removeAll (dir : String)
  | removeFile (f : String)
  | poolCloseEv
  | openPoolEv (url : String)
  | callFn (i : Nat)
  | sleepEv (ms : Nat)
  | execCreateDB
  | releaseConn
deriving DecidableEq, Repr

def isSpawn : Ev → Bool
  | Ev.spawn _ _ => true
  | _ => false

def isRemoveAll : Ev → Bool
  | Ev.removeAll _ => true
  | _ => false

def isWait : Ev → Bool
  | Ev.waitEv => true
  | _ => false

def isCall : Ev → Bool
  | Ev.callFn _ => true
  | _ => false

def hasSpawn (tr : List Ev) : Bool := tr.any isSpawn

def hasRemoveAll (tr : List Ev) : Bool := tr.any isRemoveAll

/-- Number of fn invocations recorded in a trace. -/
def countCalls (tr : List Ev) : Nat := (tr.filter isCall).length

/-- A trace leaves the spawned server running when it records a successful
spawn but no synchronous wait for the process. -/
def procLeftRunning (tr : List Ev) : Bool := hasSpawn tr && !(tr.any isWait)

/-- The loop of retry (pgtest.go lines 286-300), with the i-th invocation of
fn answered by the oracle at index i. remaining counts the further
iterations the budget permits: for a call retry(fn, attempts, interval) it
starts at (attempts-1).toNat, since the loop body decrements attempts after
each failed call and gives up once attempts <= 0. -/
def retryLoop (fn : Nat → Option String) (v : Nat) : Nat → Nat → List Ev × Option String
  | 0, i => ([Ev.callFn i], fn i)
  | r + 1, i =>
    match fn i with
    | none => ([Ev.callFn i], none)
    | some _ =>
      let rest := retryLoop fn v r (i + 1)
      (Ev.callFn i :: Ev.sleepEv v :: rest.1, rest.2)

/-- retry (pgtest.go lines 286-300). attempts keeps the source's int type;
the interval is in milliseconds. -/
def retry (fn : Nat → Option String) (attempts : Int) (v : Nat) : List Ev × Option String :=
  retryLoop fn v (attempts - 1).toNat 0

/-- Expected trace of r+1 consecutive failed-then-final calls starting at
index i, with a sleep of v between consecutive calls. -/
def callsTrace (v : Nat) : Nat → Nat → List Ev
  | i, 0 => [Ev.callFn i]
  | i, r + 1 => Ev.callFn i :: Ev.sleepEv v :: callsTrace v (i + 1) r

/-- createTestDB (pgtest.go lines 47-66): acquire an administrative
connection with retry(fn, 1000, 10ms); on success execute CREATE DATABASE
test and release the connection (deferred, so it runs after Exec either
way). The acquire oracle gives the outcome of the i-th acquire attempt;
execCreate gives the outcome of the Exec call. -/
def createTestDB (acquire : Nat → Option String) (execCreate : Option String) :
    List Ev × Option String :=
  match retry acquire 1000 10 with
  | (tr, some e) => (tr, some e)
  | (tr, none) =>
    match execCreate with
    | some e => (tr ++ [Ev.execCreateDB, Ev.releaseConn], some e)
    | none => (tr ++ [Ev.execCreateDB, Ev.releaseConn], none)

structure Config where
  BinDir : String
  Dir : String
  AdditionalArgs : List String
deriving DecidableEq, Repr

/-- The PG handle built by Start. dir is the base directory that Stop
removes; Host is the socket directory. The stream handles set by Start are
non-nil; the nil flags model the checks in Stop. -/
structure PG where
  dir : String
  Host : String
  User : String
  Name : String
  stderrNil : Bool
  stdoutNil : Bool
deriving DecidableEq, Repr

/-- Outcome of Start: a handle, an error, or a runtime panic. -/
inductive StartRes
  | ok (pg : PG)
  | err (e : String)
  | panicked
deriving DecidableEq, Repr

/-- Oracle for the effectful steps of Start. parseConfR and openPoolR are
keyed by the connection URL; acquireR answers the i-th acquire attempt of
createTestDB; readStdoutR and readStderrR are the stream contents drained
by abort. -/
structure StartEnv where
  fs : FS
  mkdirTempR : Except String String
  mkdirAllR : String → Option String
  initdbR : Except (String × String) String
  stderrPipeR : Option String
  stdoutPipeR : Option String
  cmdStartR : Option String
  parseConfR : String → Option String
  openPoolR : String → Option String
  acquireR : Nat → Option String
  execCreateR : Option String
  readStdoutR : String
  readStderrR : String

/-- The error string composed by abort (pgtest.go line 321). -/
def abortMsg (msg e sout serr : String) : String :=
  msg ++ ": " ++ e ++ "\nOUT: " ++ sout ++ "\nERR: " ++ serr

/-- abort (pgtest.go lines 313-322): interrupt the process, wait for it
(exit status ignored), drain and close both streams, and compose the error.
When cmd.Start failed, cmd.Process is nil and the Signal call dereferences
a nil pointer: the Go code panics instead of returning. -/
def abort (env : StartEnv) (procStarted : Bool) (msg e : String) : List Ev × StartRes :=
  match procStarted with
  | true =>
    ([Ev.signalInt, Ev.waitEv, Ev.readStreams, Ev.closeStderr, Ev.closeStdout],
      StartRes.err (abortMsg msg e env.readStdoutR env.readStderrR))
  | false => ([], StartRes.panicked)

def dbURL (sockDir dbName : String) : String :=
  "postgres://test@localhost/" ++ dbName ++ "?host=" ++ sockDir

/-- postgresqlDBConf (pgtest.go lines 42-45): parse the pool configuration
URL; the resulting configuration is represented by its URL. -/
def postgresqlDBConf (parse : String → Option String) (sockDir dbName : String) :
    Except String String :=
  match parse (dbURL sockDir dbName) with
  | some e => Except.error e
  | none => Except.ok (dbURL sockDir dbName)

/-- Base directory resolution of Start (pgtest.go lines 83-90): the
caller-supplied directory, or a fresh temporary directory when none was
supplied. -/
def allocDir (env : StartEnv) (config : Config) : Except String (String × List Ev) :=
  if config.Dir = "" then
    match env.mkdirTempR with
    | Except.error e => Except.error e
    | Except.ok d => Except.ok (d, [Ev.mkdirTempEv d])
  else Except.ok (config.Dir, [])

/-- The base directory Start ends up using (for stating properties). -/
def startDir (env : StartEnv) (config : Config) : String :=
  if config.Dir = "" then
    match env.mkdirTempR with
    | Except.ok d => d
    | Except.error _ => ""
  else config.Dir

/-- Start (pgtest.go lines 75-192). Every effect outcome is taken from the
oracle; the trace records the effects performed, with an Ev.spawn event
emitted exactly when cmd.Start succeeds. -/
def Start (env : StartEnv) (config : Config) : List Ev × StartRes :=
  match findBinPath env.fs config.BinDir with
  | Except.error fe => ([], StartRes.err (findErrString fe))
  | Except.ok binPath =>
    match allocDir env config with
    | Except.error e => ([], StartRes.err e)
    | Except.ok (dir, tr0) =>
      let dataDir := joinPath dir "data"
      let sockDir := joinPath dir "sock"
      match env.mkdirAllR dataDir with
      | some e => (tr0 ++ [Ev.mkdirAllEv dataDir], StartRes.err e)
      | none =>
      match env.mkdirAllR sockDir with
      | some e => (tr0 ++ [Ev.mkdirAllEv dataDir, Ev.mkdirAllEv sockDir], StartRes.err e)
      | none =>
      let tr1 := tr0 ++ [Ev.mkdirAllEv dataDir, Ev.mkdirAllEv sockDir, Ev.initdbEv dataDir]
      match env.initdbR with
      | Except.error eo =>
        (tr1, StartRes.err ("Failed to initialize DB: " ++ eo.1 ++ " -> " ++ eo.2))
      | Except.ok _ =>
      let args0 := ["-D", dataDir, "-k", sockDir, "-h", "", "-F"]
      let args := if config.AdditionalArgs.length > 0
                  then args0 ++ config.AdditionalArgs else args0
      match env.stderrPipeR with
      | some e => (tr1, StartRes.err e)
      | none =>
      match env.stdoutPipeR with
      | some e => (tr1 ++ [Ev.closeStderr], StartRes.err e)
      | none =>
      match env.cmdStartR with
      | some e =>
        let a := abort env false "Failed to start PostgreSQL" e
        (tr1 ++ a.1, a.2)
      | none =>
      let tr2 := tr1 ++ [Ev.spawn (joinPath binPath "postgres") args]
      match postgresqlDBConf env.parseConfR sockDir "postgres" with
      | Except.error e =>
        let a := abort env true "Failed to create pgx pool config" e
        (tr2 ++ a.1, a.2)
      | Except.ok _ =>
      match env.openPoolR (dbURL sockDir "postgres") with
      | some e =>
        let a := abort env true "Failed to connect to postgres DB" e
        (tr2 ++ a.1, a.2)
      | none =>
      let tr3 := tr2 ++ [Ev.openPoolEv (dbURL sockDir "postgres")]
      let c := createTestDB env.acquireR env.execCreateR
      match c.2 with
      | some e =>
        let a := abort env true "Failed to create test DB" e
        (tr3 ++ c.1 ++ a.1, a.2)
      | none =>
      let tr4 := tr3 ++ c.1 ++ [Ev.poolCloseEv]
      match postgresqlDBConf env.parseConfR sockDir "test" with
      | Except.error e =>
        let a := abort env true "Failed to create pgx pool config" e
        (tr4 ++ a.1, a.2)
      | Except.ok _ =>
      match env.openPoolR (dbURL sockDir "test") with
      | some e =>
        let a := abort env true "Failed to connect to test DB" e
        (tr4 ++ a.1, a.2)
      | none =>
        (tr4 ++ [Ev.openPoolEv (dbURL sockDir "test")],
          StartRes.ok { dir := dir, Host := sockDir, User := "test", Name := "test",
                        stderrNil := false, stdoutNil := false })

/-- Oracle for the effectful steps of Stop: outcome of Process.Signal with
the interrupt signal, of cmd.Wait, and of os.ReadDir on the socket
directory (file names). -/
structure StopEnv where
  signalIntR : Option String
  waitR : Option String
  readDirSockR : Except String (List String)

/-- Stop (pgtest.go lines 195-235). A nil receiver is a no-op. The
deferred os.RemoveAll(p.dir) is registered right after closing the pool,
before the signal is sent, so it runs on every return path, including the
early return when the signal fails. -/
def Stop (env : StopEnv) : Option PG → List Ev × Option String
  | none => ([], none)
  | some p =>
    match env.signalIntR with
    | some e => ([Ev.poolCloseEv, Ev.signalInt, Ev.removeAll p.dir], some e)
    | none =>
      let tr1 := [Ev.poolCloseEv, Ev.signalInt]
      let tr2 :=
        match env.waitR with
        | none => tr1 ++ [Ev.waitEv]
        | some _ =>
          match env.readDirSockR with
          | Except.error _ => tr1 ++ [Ev.waitEv, Ev.signalKill]
          | Except.ok files =>
            tr1 ++ [Ev.waitEv, Ev.signalKill] ++
              files.map fun f => Ev.removeFile (joinPath p.Host f)
      let tr3 := tr2 ++ (if p.stderrNil then [] else [Ev.closeStderr])
      let tr4 := tr3 ++ (if p.stdoutNil then [] else [Ev.closeStdout])
      (tr4 ++ [Ev.removeAll p.dir], none)

/- Lemmas about the retry loop. -/

theorem retryLoop_all_fail (fn : Nat → Option String) (v : Nat) :
    ∀ r i, (∀ k, k ≤ r → fn (i + k) ≠ none) →
      retryLoop fn v r i = (callsTrace v i r, fn (i + r)) := by
  intro r
  induction r with
  | zero =>
    intro i _
    simp [retryLoop, callsTrace]
  | succ r ih =>
    intro i h
    cases hfn : fn i with
    | none =>
      exact absurd hfn (by simpa using h 0 (Nat.zero_le _))
    | some e =>
      have hrec := ih (i + 1) (fun k hk => by
        have h2 := h (k + 1) (by omega)
        have hx : i + (k + 1) = i + 1 + k := by omega
        rwa [hx] at h2)
      have hidx : i + 1 + r = i + (r + 1) := by omega
      simp [retryLoop, hfn, hrec, callsTrace, hidx]

theorem retryLoop_first_success (fn : Nat → Option String) (v : Nat) :
    ∀ r i m, m ≤ r → fn (i + m) = none → (∀ k, k < m → fn (i + k) ≠ none) →
      retryLoop fn v r i = (callsTrace v i m, none) := by
  intro r
  induction r with
  | zero =>
    intro i m hm hs _
    have hm0 : m = 0 := Nat.le_zero.mp hm
    subst hm0
    simp only [Nat.add_zero] at hs
    simp [retryLoop, callsTrace, hs]
  | succ r ih =>
    intro i m hm hs hmin
    cases m with
    | zero =>
      simp only [Nat.add_zero] at hs
      simp [retryLoop, callsTrace, hs]
    | succ m =>
      cases hfn : fn i with
      | none =>
        exact absurd (by simpa using hfn) (by simpa using hmin 0 (Nat.succ_pos _))
      | some e =>
        have hrec := ih (i + 1) m (by omega)
          (by
            have hx : i + (m + 1) = i + 1 + m := by omega
            rwa [hx] at hs)
          (fun k hk => by
            have h2 := hmin (k + 1) (by omega)
            have hx : i + (k + 1) = i + 1 + k := by omega
            rwa [hx] at h2)
        simp [retryLoop, hfn, hrec, callsTrace]

theorem retryLoop_any_false (fn : Nat → Option String) (v : Nat) (p : Ev → Bool)
    (hc : ∀ j, p (Ev.callFn j) = false) (hs : p (Ev.sleepEv v) = false) :
    ∀ r i, ((retryLoop fn v r i).1).any p = false := by
  intro r
  induction r with
  | zero => intro i; simp [retryLoop, hc]
  | succ r ih =>
    intro i
    cases hfn : fn i with
    | none => simp [retryLoop, hfn, hc]
    | some e => simp [retryLoop, hfn, hc, hs, ih]

theorem callsTrace_countCalls (v : Nat) : ∀ r i, countCalls (callsTrace v i r) = r + 1 := by
  intro r
  induction r with
  | zero => intro i; simp [callsTrace, countCalls, isCall]
  | succ r ih =>
    intro i
    have hr := ih (i + 1)
    simp [callsTrace, countCalls, isCall, List.filter_cons] at hr ⊢
    omega

theorem callsTrace_sleep (v : Nat) : ∀ r i ms, Ev.sleepEv ms ∈ callsTrace v i r → ms = v := by
  intro r
  induction r with
  | zero => intro i ms h; simp [callsTrace] at h
  | succ r ih =>
    intro i ms h
    simp only [callsTrace, List.mem_cons] at h
    rcases h with h | h | h
    · exact absurd h (by simp)
    · exact (Ev.sleepEv.injEq ms v).mp h
    · exact ih (i + 1) ms h

theorem countCalls_append (a b : List Ev) :
    countCalls (a ++ b) = countCalls a + countCalls b := by
  simp [countCalls, List.filter_append]

theorem retry_1000 (fn : Nat → Option String) (v : Nat) :
    retry fn 1000 v = retryLoop fn v 999 0 := rfl

theorem createTestDB_all_fail (acquire : Nat → Option String) (execCreate : Option String)
    (h : ∀ k, k < 1000 → acquire k ≠ none) :
    createTestDB acquire execCreate = (callsTrace 10 0 999, acquire 999) := by
  have hr : retry acquire 1000 10 = (callsTrace 10 0 999, acquire 999) := by
    rw [retry_1000]
    have := retryLoop_all_fail acquire 10 999 0 (fun k hk => by
      simpa using h k (by omega))
    simpa using this
  cases hq : acquire 999 with
  | none => exact absurd hq (h 999 (by omega))
  | some e => simp [createTestDB, hr, hq]

theorem createTestDB_first_success (acquire : Nat → Option String) (execCreate : Option String)
    (m : Nat) (hm : m < 1000) (hs : acquire m = none) (hmin : ∀ k, k < m → acquire k ≠ none) :
    createTestDB acquire execCreate =
      (callsTrace 10 0 m ++ [Ev.execCreateDB, Ev.releaseConn], execCreate) := by
  have hr : retry acquire 1000 10 = (callsTrace 10 0 m, none) := by
    rw [retry_1000]
    exact retryLoop_first_success acquire 10 999 0 m (by omega) (by simpa using hs)
      (fun k hk => by simpa using hmin k hk)
  cases execCreate with
  | none => simp [createTestDB, hr]
  | some e => simp [createTestDB, hr]

/-- C6: the readiness loop of createTestDB invokes the connection-acquire
step at most 1000 times with a fixed 10-millisecond sleep between
consecutive failed attempts and no backoff; it stops at the first
successful attempt; and when all 1000 attempts fail it returns the error
observed on the last attempt, not a generic timeout error. -/
theorem claim_C6 (acquire : Nat → Option String) (execCreate : Option String) :
    ((∀ k, k < 1000 → acquire k ≠ none) →
       createTestDB acquire execCreate = (callsTrace 10 0 999, acquire 999)) ∧
    (∀ m, m < 1000 → acquire m = none → (∀ k, k < m → acquire k ≠ none) →
       createTestDB acquire execCreate =
         (callsTrace 10 0 m ++ [Ev.execCreateDB, Ev.releaseConn], execCreate)) ∧
    (∀ tr r, createTestDB acquire execCreate = (tr, r) →
       countCalls tr ≤ 1000 ∧ ∀ ms, Ev.sleepEv ms ∈ tr → ms = 10) := by
  refine ⟨fun h => createTestDB_all_fail acquire execCreate h,
          fun m hm hs hmin => createTestDB_first_success acquire execCreate m hm hs hmin, ?_⟩
  intro tr r h
  by_cases hex : ∃ m, m < 1000 ∧ acquire m = none
  · have hspec := Nat.find_spec hex
    have hmin : ∀ k, k < Nat.find hex → acquire k ≠ none := fun k hk => by
      have := Nat.find_min hex hk
      intro hk2
      exact this ⟨by omega, hk2⟩
    rw [createTestDB_first_success acquire execCreate (Nat.find hex) hspec.1 hspec.2 hmin] at h
    rw [Prod.mk.injEq] at h
    obtain ⟨htr, _⟩ := h
    subst htr
    constructor
    · rw [countCalls_append, callsTrace_countCalls]
      have : countCalls [Ev.execCreateDB, Ev.releaseConn] = 0 := by decide
      omega
    · intro ms hms
      rcases List.mem_append.mp hms with hm1 | hm1
      · exact callsTrace_sleep 10 (Nat.find hex) 0 ms hm1
      · simp at hm1
  · push_neg at hex
    rw [createTestDB_all_fail acquire execCreate (fun k hk => hex k hk)] at h
    rw [Prod.mk.injEq] at h
    obtain ⟨htr, _⟩ := h
    subst htr
    constructor
    · rw [callsTrace_countCalls]
    · exact fun ms hms => callsTrace_sleep 10 999 0 ms hms

theorem claim_C6_witness :
    createTestDB (fun k => if k < 2 then some "connection refused" else none) none =
      (callsTrace 10 0 2 ++ [Ev.execCreateDB, Ev.releaseConn], none) :=
  (claim_C6 (fun k => if k < 2 then some "connection refused" else none) none).2.1 2
    (by decide) (by decide) (by decide)

/- Claims about Stop. -/

/-- C2 (amended): Stop returns an error exactly when sending the interrupt
signal fails, and in that failing case only the deferred removal of the
data-directory tree still runs: Stop returns right after the failed signal,
skipping the wait/kill escalation, the socket cleanup and the closing of
the two diagnostic stream handles. -/
theorem claim_C2_amended (env : StopEnv) (p : PG) :
    ((Stop env (some p)).2 ≠ none ↔ env.signalIntR ≠ none) ∧
    (∀ e, env.signalIntR = some e →
      Stop env (some p) = ([Ev.poolCloseEv, Ev.signalInt, Ev.removeAll p.dir], some e)) := by
  cases hsig : env.signalIntR with
  | none => simp [Stop, hsig]
  | some e => simp [Stop, hsig]

def pgC2 : PG :=
  { dir := "/tmp/pgxtest-c2", Host := "/tmp/pgxtest-c2/sock", User := "test",
    Name := "test", stderrNil := false, stdoutNil := false }

def envC2 : StopEnv :=
  { signalIntR := some "permission denied", waitR := none, readDirSockR := Except.ok [] }

/-- C2 counterexample: when the interrupt signal fails, Stop returns the
error but does not attempt the wait, nor does it close either stream
handle, refuting the part of the claim that says every subsequent cleanup
step is still attempted. -/
theorem claim_C2_counterexample :
    (Stop envC2 (some pgC2)).2 = some "permission denied" ∧
    Ev.waitEv ∉ (Stop envC2 (some pgC2)).1 ∧
    Ev.closeStderr ∉ (Stop envC2 (some pgC2)).1 ∧
    Ev.closeStdout ∉ (Stop envC2 (some pgC2)).1 := by decide

def pgC2W : PG :=
  { dir := "/w2", Host := "/w2/sock", User := "test", Name := "test",
    stderrNil := false, stdoutNil := false }

def envC2W : StopEnv :=
  { signalIntR := some "EPERM", waitR := none, readDirSockR := Except.ok [] }

theorem claim_C2_witness :
    (Stop envC2W (some pgC2W)).2 ≠ none ∧
    Stop envC2W (some pgC2W) = ([Ev.poolCloseEv, Ev.signalInt, Ev.removeAll "/w2"], some "EPERM") := by
  have h := claim_C2_amended envC2W pgC2W
  exact ⟨h.1.mpr (by decide), h.2 "EPERM" rfl⟩

/-- C4 (amended): Stop on a nil handle is a no-op returning nil, and Stop
returns nil whenever the interrupt signal can be delivered (which includes
a process that exited on its own but has not been reaped); but when the
signal itself fails — as on a second call to Stop, after the first call's
Wait has already reaped the process — Stop returns that error, not nil. -/
theorem claim_C4_amended (env : StopEnv) :
    Stop env none = ([], none) ∧
    (∀ p : PG, env.signalIntR = none → (Stop env (some p)).2 = none) ∧
    (∀ (p : PG) (e : String), env.signalIntR = some e → (Stop env (some p)).2 = some e) := by
  refine ⟨rfl, ?_, ?_⟩
  · intro p h
    simp [Stop, h]
  · intro p e h
    simp [Stop, h]

def pgC4 : PG :=
  { dir := "/tmp/pgxtest-c4", Host := "/tmp/pgxtest-c4/sock", User := "test",
    Name := "test", stderrNil := false, stdoutNil := false }

/-- Scenario of a second call to Stop: the first call's cmd.Wait has reaped
the process, and the Go os package then makes Process.Signal return the
process-already-finished error. -/
def envC4 : StopEnv :=
  { signalIntR := some "os: process already finished", waitR := none,
    readDirSockR := Except.ok [] }

/-- C4 counterexample: on an instance whose process was already reaped by a
previous Stop, the interrupt signal fails and Stop returns that error, not
nil — refuting the claim that such a call never returns an error. -/
theorem claim_C4_counterexample :
    (Stop envC4 (some pgC4)).2 = some "os: process already finished" := by decide

def pgC4W : PG :=
  { dir := "/w4", Host := "/w4/sock", User := "test", Name := "test",
    stderrNil := false, stdoutNil := false }

def envC4W : StopEnv :=
  { signalIntR := none, waitR := some "exit status 1", readDirSockR := Except.ok ["s.PGSQL.5432"] }

theorem claim_C4_witness :
    Stop envC4W none = ([], none) ∧ (Stop envC4W (some pgC4W)).2 = none := by
  have h := claim_C4_amended envC4W
  exact ⟨h.1, h.2.1 pgC4W rfl⟩

/-- C10: even when Stop returns the signal-send error as a hard failure,
the deferred removal registered before the signal still removes the entire
base directory (which holds the data and socket directories) before Stop
returns. -/
theorem claim_C10 (env : StopEnv) (p : PG) (e : String) (h : env.signalIntR = some e) :
    Stop env (some p) = ([Ev.poolCloseEv, Ev.signalInt, Ev.removeAll p.dir], some e) := by
  simp [Stop, h]

def pgC10 : PG :=
  { dir := "/base10", Host := "/base10/sock", User := "test", Name := "test",
    stderrNil := false, stdoutNil := false }

def envC10 : StopEnv :=
  { signalIntR := some "ESRCH", waitR := none, readDirSockR := Except.ok [] }

theorem claim_C10_witness :
    Stop envC10 (some pgC10) =
      ([Ev.poolCloseEv, Ev.signalInt, Ev.removeAll "/base10"], some "ESRCH") :=
  claim_C10 envC10 pgC10 "ESRCH" rfl

/- Claim C1: Stop removes a caller-supplied directory. -/

def fsC1 : FS :=
  { lookPathInitdb := some "/usr/bin/initdb"
    statF := fun _ => none
    readDirF := fun _ => Except.error "ENOENT" }

def envC1 : StartEnv :=
  { fs := fsC1
    mkdirTempR := Except.error "unused"
    mkdirAllR := fun _ => none
    initdbR := Except.ok "ok"
    stderrPipeR := none
    stdoutPipeR := none
    cmdStartR := none
    parseConfR := fun _ => none
    openPoolR := fun _ => none
    acquireR := fun _ => none
    execCreateR := none
    readStdoutR := ""
    readStderrR := "" }

def cfgC1 : Config := { BinDir := "", Dir := "/custom", AdditionalArgs := [] }

def pgC1 : PG :=
  { dir := "/custom", Host := "/custom/sock", User := "test", Name := "test",
    stderrNil := false, stdoutNil := false }

def envStopC1 : StopEnv :=
  { signalIntR := none, waitR := none, readDirSockR := Except.ok [] }

/-- C1 (code bug): a successful Start with the caller-supplied directory
"/custom" yields a handle whose dir field is that directory, and Stop on
that handle performs os.RemoveAll on it: the caller-supplied storage
directory IS removed on teardown, contradicting the claim and the Dir
field's own comment (removed for non-persistent configs). -/
theorem claim_C1_code_bug :
    (Start envC1 cfgC1).2 = StartRes.ok pgC1 ∧
    pgC1.dir = "/custom" ∧
    Ev.removeAll "/custom" ∈ (Stop envStopC1 (some pgC1)).1 := by
  refine ⟨by decide, rfl, by decide⟩

/- Claim C5: spawn failure panics in abort. -/

def envC5 : StartEnv :=
  { fs := fsC1
    mkdirTempR := Except.ok "/tmp/pgxtest-c5"
    mkdirAllR := fun _ => none
    initdbR := Except.ok "ok"
    stderrPipeR := none
    stdoutPipeR := none
    cmdStartR := some "fork-exec: permission denied"
    parseConfR := fun _ => none
    openPoolR := fun _ => none
    acquireR := fun _ => none
    execCreateR := none
    readStdoutR := ""
    readStderrR := "" }

def cfgC5 : Config := { BinDir := "", Dir := "", AdditionalArgs := [] }

/-- C5 (code bug): when cmd.Start fails, Start does not return an error: it
passes the never-started command to abort, whose Signal call dereferences
the nil Process handle, so the call panics (no process is left running,
but the no-panic part of the claim is violated). -/
theorem claim_C5_code_bug :
    (Start envC5 cfgC5).2 = StartRes.panicked ∧
    procLeftRunning (Start envC5 cfgC5).1 = false := by
  refine ⟨by decide, by decide⟩

/- Claim C8: order of the binary-locator directory scan. -/

def fsC8 : FS :=
  { lookPathInitdb := none
    statF := fun p =>
      if p = "/pg" then some true
      else if p = "/pg/initdb" then some false
      else if p = "/pg/14/bin/initdb" then some false
      else none
    readDirF := fun p =>
      if p = "/pg" then
        Except.ok [{ name := "14", isDir := true }, { name := "initdb", isDir := false }]
      else Except.error "ENOENT" }

/-- C8 counterexample: the folder /pg contains the tool initdb directly
(both as a listing entry and on disk), and also a versioned subdirectory
14 with a nested bin install; because the listing is scanned in order and
"14" sorts before "initdb", findBinPath returns the nested /pg/14/bin, not
/pg — refuting the claimed preference for the directory itself. -/
theorem claim_C8_counterexample :
    fsC8.readDirF "/pg" =
      Except.ok [{ name := "14", isDir := true }, { name := "initdb", isDir := false }] ∧
    (fsC8.statF "/pg/initdb").isSome = true ∧
    findBinPath fsC8 "/pg" = Except.ok "/pg/14/bin" ∧
    "/pg/14/bin" ≠ "/pg" := by decide

theorem scanEntries_cons (fs : FS) (folder : String) (fi : DirEntry) (rest : List DirEntry) :
    scanEntries fs folder (fi :: rest) =
      match entryProbe fs folder fi with
      | some p => some p
      | none => scanEntries fs folder rest := by
  simp only [scanEntries, entryProbe]
  split_ifs <;> rfl

/-- C8 (amended): within each candidate directory the scan examines the
listing entries in order and the first entry that matches decides the
result — a non-directory entry named initdb yields the directory itself,
a subdirectory with a nested bin install yields that nested path; direct
presence of the tool is not preferred over a nested install that appears
earlier in the listing. The search is deterministic and stops at the
first match. -/
theorem claim_C8_amended (fs : FS) (folder : String) (entries : List DirEntry) :
    scanEntries fs folder entries = entries.findSome? (entryProbe fs folder) := by
  induction entries with
  | nil => rfl
  | cons fi rest ih =>
    rw [scanEntries_cons]
    cases hp : entryProbe fs folder fi <;> simp [List.findSome?_cons, hp, ih]

/- Path analysis of Start for claims C3, C7 and C9. -/

theorem createTestDB_any_false (acquire : Nat → Option String) (execCreate : Option String)
    (p : Ev → Bool) (hc : ∀ j, p (Ev.callFn j) = false) (hs10 : p (Ev.sleepEv 10) = false)
    (he : p Ev.execCreateDB = false) (hr : p Ev.releaseConn = false) :
    ((createTestDB acquire execCreate).1).any p = false := by
  have hB : ((retry acquire 1000 10).1).any p = false := by
    rw [retry_1000]
    exact retryLoop_any_false acquire 10 p hc hs10 999 0
  unfold createTestDB
  rcases hR : retry acquire 1000 10 with ⟨trr, res⟩
  cases res <;> cases execCreate <;> simp_all [List.any_append]

theorem allocDir_trace (env : StartEnv) (config : Config) (d : String) (tr0 : List Ev)
    (h : allocDir env config = Except.ok (d, tr0)) :
    tr0 = [] ∨ tr0 = [Ev.mkdirTempEv d] := by
  unfold allocDir at h
  by_cases hc : config.Dir = ""
  · simp only [hc, if_pos] at h
    cases hm : env.mkdirTempR with
    | error e =>
      rw [hm] at h
      exact absurd h (by simp)
    | ok dd =>
      rw [hm] at h
      simp at h
      right
      rw [h.2.symm, h.1]
  · simp [hc] at h
    left
    exact h.2

/-- C3 (amended): whenever Start returns an error and the storage directory
was auto-allocated (Config.Dir empty), no server process is left running,
but no removal of the allocated temporary directory is attempted either:
Start performs no RemoveAll on any failure path, so the temporary
directory remains on disk. -/
theorem claim_C3_amended (env : StartEnv) (config : Config) (tr : List Ev) (e : String)
    (hdir : config.Dir = "") (h : Start env config = (tr, StartRes.err e)) :
    procLeftRunning tr = false ∧ hasRemoveAll tr = false := by
  have hRA : ((createTestDB env.acquireR env.execCreateR).1).any isRemoveAll = false :=
    createTestDB_any_false env.acquireR env.execCreateR isRemoveAll (fun j => rfl) rfl rfl rfl
  cases hA : allocDir env config with
  | error ea =>
    simp only [Start, hA] at h
    repeat' split at h
    all_goals rw [Prod.mk.injEq] at h
    all_goals obtain ⟨htr, hres⟩ := h
    all_goals first
      | (subst htr
         simp [procLeftRunning, hasSpawn, hasRemoveAll, isSpawn, isWait, isRemoveAll,
               List.any_append, hRA]
         done)
      | exact absurd hres (by simp)
  | ok p =>
    obtain ⟨d, tr0⟩ := p
    rcases allocDir_trace env config d tr0 hA with h0 | h0 <;>
      (subst h0
       simp only [Start, hA] at h
       repeat' split at h
       all_goals try simp only [abort] at h
       all_goals rw [Prod.mk.injEq] at h
       all_goals obtain ⟨htr, hres⟩ := h
       all_goals first
         | (subst htr
            simp [procLeftRunning, hasSpawn, hasRemoveAll, isSpawn, isWait, isRemoveAll,
                  List.any_append, hRA]
            done)
         | exact absurd hres (by simp))

def envC3 : StartEnv :=
  { fs := fsC1
    mkdirTempR := Except.ok "/tmp/pgxtest-c3"
    mkdirAllR := fun _ => none
    initdbR := Except.error ("exit status 1", "initdb: locale failure")
    stderrPipeR := none
    stdoutPipeR := none
    cmdStartR := none
    parseConfR := fun _ => none
    openPoolR := fun _ => none
    acquireR := fun _ => none
    execCreateR := none
    readStdoutR := ""
    readStderrR := "" }

def cfgC3 : Config := { BinDir := "", Dir := "", AdditionalArgs := [] }

/-- C3 counterexample: with an auto-allocated directory, a failure of the
cluster-initialization step makes Start return an error after the fresh
temporary directory was created, and no RemoveAll is ever performed, so
the leftover temporary directory remains on disk — refuting the claim
that no leftover temporary directory remains. -/
theorem claim_C3_counterexample :
    (Start envC3 cfgC3).2 =
      StartRes.err "Failed to initialize DB: exit status 1 -> initdb: locale failure" ∧
    Ev.mkdirTempEv "/tmp/pgxtest-c3" ∈ (Start envC3 cfgC3).1 ∧
    hasRemoveAll (Start envC3 cfgC3).1 = false := by decide

theorem claim_C3_witness :
    procLeftRunning (Start envC3 cfgC3).1 = false ∧
    hasRemoveAll (Start envC3 cfgC3).1 = false := by
  have h : Start envC3 cfgC3 = ((Start envC3 cfgC3).1,
      StartRes.err "Failed to initialize DB: exit status 1 -> initdb: locale failure") := by
    decide
  exact claim_C3_amended envC3 cfgC3 (Start envC3 cfgC3).1 _ rfl h

/-- C7: every failure of Start after the server process has been spawned
goes through the abort sequence — interrupt signal, synchronous wait,
draining and closing both streams — and the returned error is the composed
abort message embedding the original failure reason together with the
captured stdout and stderr contents. -/
theorem claim_C7 (env : StartEnv) (config : Config) (tr : List Ev) (e : String)
    (h : Start env config = (tr, StartRes.err e)) (hs : hasSpawn tr = true) :
    Ev.signalInt ∈ tr ∧ Ev.waitEv ∈ tr ∧ Ev.readStreams ∈ tr ∧
    Ev.closeStderr ∈ tr ∧ Ev.closeStdout ∈ tr ∧
    ∃ msg orig, e = abortMsg msg orig env.readStdoutR env.readStderrR := by
  cases hA : allocDir env config with
  | error ea =>
    simp only [Start, hA] at h
    repeat' split at h
    all_goals rw [Prod.mk.injEq] at h
    all_goals obtain ⟨htr, hres⟩ := h
    all_goals first
      | (subst htr
         exfalso
         simp [hasSpawn, isSpawn, List.any_append] at hs
         done)
      | exact absurd hres (by simp)
  | ok p =>
    obtain ⟨d, tr0⟩ := p
    rcases allocDir_trace env config d tr0 hA with h0 | h0 <;>
      (subst h0
       simp only [Start, hA] at h
       repeat' split at h
       all_goals try simp only [abort] at h
       all_goals rw [Prod.mk.injEq] at h
       all_goals obtain ⟨htr, hres⟩ := h
       all_goals first
         | (subst htr
            exfalso
            simp [hasSpawn, isSpawn, List.any_append] at hs
            done)
         | (subst htr
            rw [StartRes.err.injEq] at hres
            refine ⟨?_, ?_, ?_, ?_, ?_, _, _, hres.symm⟩ <;> simp
            done)
         | exact absurd hres (by simp))

def envC7 : StartEnv :=
  { fs := fsC1
    mkdirTempR := Except.error "unused"
    mkdirAllR := fun _ => none
    initdbR := Except.ok "ok"
    stderrPipeR := none
    stdoutPipeR := none
    cmdStartR := none
    parseConfR := fun _ => none
    openPoolR := fun u => if u = dbURL "/b7/sock" "postgres" then some "connection refused" else none
    acquireR := fun _ => none
    execCreateR := none
    readStdoutR := "OUTDATA"
    readStderrR := "ERRDATA" }

def cfgC7 : Config := { BinDir := "", Dir := "/b7", AdditionalArgs := [] }

def eC7 : String :=
  abortMsg "Failed to connect to postgres DB" "connection refused" "OUTDATA" "ERRDATA"

theorem claim_C7_witness :
    Ev.signalInt ∈ (Start envC7 cfgC7).1 ∧ Ev.waitEv ∈ (Start envC7 cfgC7).1 ∧
    Ev.readStreams ∈ (Start envC7 cfgC7).1 ∧ Ev.closeStderr ∈ (Start envC7 cfgC7).1 ∧
    Ev.closeStdout ∈ (Start envC7 cfgC7).1 ∧
    ∃ msg orig, eC7 = abortMsg msg orig envC7.readStdoutR envC7.readStderrR := by
  have h : Start envC7 cfgC7 = ((Start envC7 cfgC7).1, StartRes.err eC7) := by decide
  have hsp : hasSpawn (Start envC7 cfgC7).1 = true := by decide
  exact claim_C7 envC7 cfgC7 (Start envC7 cfgC7).1 eC7 h hsp

theorem startDir_of_allocDir (env : StartEnv) (config : Config) (d : String) (tr0 : List Ev)
    (h : allocDir env config = Except.ok (d, tr0)) : startDir env config = d := by
  unfold allocDir at h
  unfold startDir
  by_cases hc : config.Dir = ""
  · simp only [hc, if_pos] at h ⊢
    cases hm : env.mkdirTempR with
    | error e =>
      rw [hm] at h
      exact absurd h (by simp)
    | ok dd =>
      rw [hm] at h
      simp at h
      simp [h.1]
  · simp [hc] at h ⊢
    exact h.1

theorem spawn_args_aux (env : StartEnv) (config : Config) (exe : String) (args : List String)
    (d : String) (tr0 : List Ev)
    (hA : allocDir env config = Except.ok (d, tr0))
    (h : Ev.spawn exe args ∈ (Start env config).1) :
    args = ["-D", joinPath d "data", "-k", joinPath d "sock", "-h", "", "-F"]
      ++ config.AdditionalArgs := by
  have hSP2 : ∀ x a, Ev.spawn x a ∉ (createTestDB env.acquireR env.execCreateR).1 := by
    intro x a hmem
    have h2 : ((createTestDB env.acquireR env.execCreateR).1).any isSpawn = true :=
      List.any_eq_true.mpr ⟨Ev.spawn x a, hmem, rfl⟩
    rw [createTestDB_any_false env.acquireR env.execCreateR isSpawn
      (fun j => rfl) rfl rfl rfl] at h2
    exact Bool.noConfusion h2
  rcases allocDir_trace env config d tr0 hA with h0 | h0
  all_goals subst h0
  all_goals by_cases hlen : config.AdditionalArgs.length > 0
  case pos =>
    simp only [Start, hA, if_pos hlen] at h
    repeat' split at h
    all_goals try simp only [abort] at h
    all_goals simp [List.mem_append, hSP2] at h
    all_goals (obtain ⟨h1, h2⟩ := h; subst h2; simp)
  case neg =>
    have hnil : config.AdditionalArgs = [] :=
      List.eq_nil_of_length_eq_zero (Nat.eq_zero_of_not_pos hlen)
    simp only [Start, hA, if_neg hlen] at h
    repeat' split at h
    all_goals try simp only [abort] at h
    all_goals simp [List.mem_append, hSP2] at h
    all_goals (obtain ⟨h1, h2⟩ := h; subst h2; simp [hnil])
  case pos =>
    simp only [Start, hA, if_pos hlen] at h
    repeat' split at h
    all_goals try simp only [abort] at h
    all_goals simp [List.mem_append, hSP2] at h
    all_goals (obtain ⟨h1, h2⟩ := h; subst h2; simp)
  case neg =>
    have hnil : config.AdditionalArgs = [] :=
      List.eq_nil_of_length_eq_zero (Nat.eq_zero_of_not_pos hlen)
    simp only [Start, hA, if_neg hlen] at h
    repeat' split at h
    all_goals try simp only [abort] at h
    all_goals simp [List.mem_append, hSP2] at h
    all_goals (obtain ⟨h1, h2⟩ := h; subst h2; simp [hnil])

/-- C9: the argument list handed to the server process is exactly the fixed
required arguments — data directory, socket directory, TCP listening
disabled via an empty host string, fsync disabled — followed, in order and
unmodified, by the caller's Config.AdditionalArgs. -/
theorem claim_C9 (env : StartEnv) (config : Config) (exe : String) (args : List String)
    (h : Ev.spawn exe args ∈ (Start env config).1) :
    args = ["-D", joinPath (startDir env config) "data",
            "-k", joinPath (startDir env config) "sock",
            "-h", "", "-F"] ++ config.AdditionalArgs := by
  cases hA : allocDir env config with
  | error ea =>
    simp only [Start, hA] at h
    repeat' split at h
    all_goals simp at h
  | ok p =>
    obtain ⟨d, tr0⟩ := p
    rw [startDir_of_allocDir env config d tr0 hA]
    exact spawn_args_aux env config exe args d tr0 hA h

def envC9 : StartEnv :=
  { fs := fsC1
    mkdirTempR := Except.error "unused"
    mkdirAllR := fun _ => none
    initdbR := Except.ok "ok"
    stderrPipeR := none
    stdoutPipeR := none
    cmdStartR := none
    parseConfR := fun _ => none
    openPoolR := fun _ => none
    acquireR := fun _ => none
    execCreateR := none
    readStdoutR := ""
    readStderrR := "" }

def cfgC9 : Config := { BinDir := "", Dir := "/d9", AdditionalArgs := ["-c", "wal_level=logical"] }

theorem claim_C9_witness :
    ["-D", "/d9/data", "-k", "/d9/sock", "-h", "", "-F", "-c", "wal_level=logical"] =
      ["-D", joinPath (startDir envC9 cfgC9) "data",
       "-k", joinPath (startDir envC9 cfgC9) "sock",
       "-h", "", "-F"] ++ cfgC9.AdditionalArgs :=
  claim_C9 envC9 cfgC9 "/usr/bin/postgres"
    ["-D", "/d9/data", "-k", "/d9/sock", "-h", "", "-F", "-c", "wal_level=logical"]
    (by decide)

end Pgxtest
